import Mathlib

/-!
Verification of the PagerDuty team incident exporter
(src/pd_team_incident_exporter/pd_team_incident_exporter.py).

The Python script is embedded shallowly: network responses become explicit
argument values (an inductive of transport error / HTTP response), JSON
objects become structures with optional fields, and the pagination loop
becomes a fuel-indexed recursion that additionally records the request
parameters and progress updates it would emit, so that claims about request
sequences and observability can be stated.  Python string truthiness
(an empty string and None are both falsy in an `x or y` expression) is
modelled explicitly by the helpers below.
-/

namespace PdExporter

/-- Python `a or b` for two optional strings: `a` wins unless it is `None`
or the empty string (both falsy in Python). -/
def pyOrOpt (a b : Option String) : Option String :=
  match a with
  | some s => if s = "" then b else some s
  | none => b

/-- Python `a or b` where `b` is a plain (truthy or not) string default. -/
def pyOrS (a : Option String) (b : String) : String :=
  match a with
  | some s => if s = "" then b else s
  | none => b

/-- Python `str(x) if x else None`: collapse a falsy value to `None`. -/
def pyTruthyStr (a : Option String) : Option String :=
  match a with
  | some s => if s = "" then none else some s
  | none => none

/-! ## Resolution enricher (`get_incident_resolve_metadata`) -/

/-- The `agent` object of a log entry (`include[]=users` expansion). -/
structure Agent where
  summary : Option String
  name : Option String
deriving DecidableEq, Repr

/-- The `channel` object of a log entry (read by the source to build a
`reason` value that is then discarded; kept for fidelity of the data model). -/
structure Channel where
  summary : Option String
  type : Option String
deriving DecidableEq, Repr

/-- One element of the `log_entries` array. -/
structure LogEntry where
  type : String
  agent : Option Agent
  channel : Option Channel
  summary : Option String
deriving DecidableEq, Repr

/-- Outcome of the `GET /incidents/<id>/log_entries` call: either a
transport-level failure (a raised `RequestException`) or an HTTP response
with a status code and a parsed `log_entries` array. -/
inductive LogEntriesResult where
  | response (status : Nat) (log_entries : List LogEntry)
  | transportError
deriving DecidableEq, Repr

/-- The dictionary returned by `get_incident_resolve_metadata`. -/
structure ResolveMeta where
  resolved_by : Option String
deriving DecidableEq, Repr

/-- Embedding of `get_incident_resolve_metadata`, as a function of the
outcome of its single network call.  Scans the returned entries for the
first `resolve_log_entry`, extracting the acting agent's summary or name
with Python `or` (falsy) semantics; every failure path yields
`{"resolved_by": None}`. -/
def get_incident_resolve_metadata (res : LogEntriesResult) : ResolveMeta :=
  match res with
  | .transportError => ⟨none⟩
  | .response status entries =>
    if status ≠ 200 then ⟨none⟩
    else
      match entries.find? (fun e => e.type == "resolve_log_entry") with
      | some entry =>
        let agent := entry.agent.getD ⟨none, none⟩
        ⟨pyTruthyStr (pyOrOpt agent.summary agent.name)⟩
      | none => ⟨none⟩

/-! ## Incident records and the paginated fetcher (`get_incidents_for_team`) -/

/-- The nested `service` object of an incident. -/
structure Service where
  summary : Option String
  name : Option String
deriving DecidableEq, Repr

/-- The nested `last_status_change_by` object of an incident. -/
structure Actor where
  summary : Option String
deriving DecidableEq, Repr

/-- An incident record, restricted to the fields the script reads.
`none` models an absent key. -/
structure Incident where
  id : Option String
  incident_number : Option Int
  title : Option String
  status : Option String
  urgency : Option String
  created_at : Option String
  html_url : Option String
  service : Option Service
  last_status_change_by : Option Actor
deriving DecidableEq, Repr

/-- One page of the `GET /incidents` response: the `incidents` array, the
`more` flag (absent is modelled as `false`, exactly how the source reads it
via `data.get("more", False)`), and the optional `total` hint. -/
structure Page where
  incidents : List Incident
  more : Bool
  total : Option Int
deriving DecidableEq, Repr

/-- A page with no incidents, no further pages and no total. -/
def emptyPage : Page := ⟨[], false, none⟩

/-- Observable outcome of one run of the fetch loop: the accumulated
incident sequence, the `(limit, offset)` pairs of the requests issued in
order, and the `(fetched_count, total_count)` pairs passed to the progress
bar. -/
structure FetchTrace where
  incidents : List Incident
  requests : List (Nat × Nat)
  progress : List (Nat × Int)
deriving DecidableEq, Repr

/-- The `while True` loop of `get_incidents_for_team`.  `svc limit offset`
is the page the service returns for a request with those parameters; the
loop always passes `limit = 100` and advances `offset` by the limit.
`total_count` is set from the first page carrying a `total`, and a progress
update is emitted only when it is truthy (present and nonzero); the loop
exits exactly when a page's `more` flag is falsy.  `fuel` bounds the
recursion (the Python loop has no cap; `none` means the fuel ran out before
a final page was seen). -/
def fetchAux (svc : Nat → Nat → Page) :
    Nat → Nat → Option Int → Nat → Option FetchTrace
  | 0, _, _, _ => none
  | fuel + 1, offset, total_count, fetched_count =>
    let page := svc 100 offset
    let total_count1 : Option Int := total_count.or page.total
    let fetched_count1 := fetched_count + page.incidents.length
    let prog : List (Nat × Int) :=
      match total_count1 with
      | some t => if t ≠ 0 then [(fetched_count1, t)] else []
      | none => []
    if page.more then
      match fetchAux svc fuel (offset + 100) total_count1 fetched_count1 with
      | none => none
      | some rest =>
        some ⟨page.incidents ++ rest.incidents, (100, offset) :: rest.requests,
              prog ++ rest.progress⟩
    else
      some ⟨page.incidents, [(100, offset)], prog⟩

/-- Embedding of `get_incidents_for_team`: run the fetch loop from
`offset = 0` with no total seen and nothing fetched. -/
def get_incidents_for_team (svc : Nat → Nat → Page) (fuel : Nat) :
    Option FetchTrace :=
  fetchAux svc fuel 0 none 0

/-- The observables of a fetch run that the `total` hint may not influence:
the incident sequence and the request parameters. -/
def fetchObservables (tr : FetchTrace) : List Incident × List (Nat × Nat) :=
  (tr.incidents, tr.requests)

/-! ## Filename sanitization (`sanitize_filename_component`) -/

/-- The character class `[A-Za-z0-9]` of the sanitizer's regular
expression. -/
def isAsciiAlnum (c : Char) : Bool :=
  decide ((65 ≤ c.toNat ∧ c.toNat ≤ 90) ∨ (97 ≤ c.toNat ∧ c.toNat ≤ 122) ∨
    (48 ≤ c.toNat ∧ c.toNat ≤ 57))

/-- The whitespace class stripped by Python `str.strip()` (ASCII part). -/
def pyIsSpace (c : Char) : Bool :=
  c == ' ' || c == '\t' || c == '\n' || c == '\r' || c == '\x0b' || c == '\x0c'

/-- Python `str.strip()` on a character list: drop a run of whitespace from
both ends. -/
def pyStrip (l : List Char) : List Char :=
  (l.dropWhile pyIsSpace).rdropWhile pyIsSpace

/-- `re.sub(r"[^A-Za-z0-9]+", "_", ·)`: replace every maximal run of
non-alphanumeric characters by a single underscore.  The boolean argument
records whether the scan is inside such a run (so the run's later
characters emit nothing). -/
def collapseAux : Bool → List Char → List Char
  | _, [] => []
  | inRun, c :: cs =>
    if isAsciiAlnum c then c :: collapseAux false cs
    else if inRun then collapseAux true cs
    else '_' :: collapseAux true cs

/-- Embedding of `sanitize_filename_component`:
`re.sub(r"[^A-Za-z0-9]+", "_", name.strip().lower()).strip("_")`, falling
back to `"team"` when the result is empty. -/
def sanitize_filename_component (s : String) : String :=
  let lowered := (pyStrip s.data).map Char.toLower
  let collapsed := collapseAux false lowered
  let t := (collapsed.dropWhile (fun c => c == '_')).rdropWhile (fun c => c == '_')
  if t = [] then "team" else String.mk t

/-! ## Team resolution (`get_team_id_by_name`, `validate_team_id`) -/

/-- One element of the `teams` array of the search response. -/
structure Team where
  id : Option String
  name : Option String
deriving DecidableEq, Repr

/-- Outcome of the `GET /teams` search call. -/
inductive TeamsResult where
  | response (status : Nat) (teams : List Team)
  | transportError
deriving DecidableEq, Repr

/-- The fatal conditions of the resolver, each of which the script reports
with a diagnostic line and `sys.exit(1)`. -/
inductive FatalError where
  | serviceError
  | transportFailure
  | invalidTeamId
  | teamNotFound
deriving DecidableEq, Repr

deriving instance DecidableEq for Except

/-- The character class of the id pattern `^[A-Z0-9]{7,}$`. -/
def isTeamIdChar (c : Char) : Bool :=
  decide ((65 ≤ c.toNat ∧ c.toNat ≤ 90) ∨ (48 ≤ c.toNat ∧ c.toNat ≤ 57))

/-- Embedding of `is_pagerduty_team_id`: the full match of
`^[A-Z0-9]{7,}$`. -/
def is_pagerduty_team_id (s : String) : Bool :=
  decide (7 ≤ s.data.length) && s.data.all isTeamIdChar

/-- Embedding of `validate_team_id`: an empty or ill-formed id is the fatal
`InvalidIdentifier` condition, otherwise the id is returned unchanged. -/
def validate_team_id (team_id : String) : Except FatalError String :=
  if team_id = "" ∨ is_pagerduty_team_id team_id = false then
    .error .invalidTeamId
  else
    .ok team_id

/-- Python `str.lower()` on a string (ASCII case mapping). -/
def pyLower (s : String) : String :=
  String.mk (s.data.map Char.toLower)

/-- The resolver's match predicate:
`str(team.get("name", "")).lower() == team_name.lower()`. -/
def teamNameMatches (team_name : String) (t : Team) : Bool :=
  pyLower (t.name.getD "") == pyLower team_name

/-- Embedding of `get_team_id_by_name`, as a function of the outcome of the
search call: a non-200 status or a transport failure is fatal; otherwise
the first team of the response whose name matches case-insensitively is
validated and its id returned, and `TeamNotFound` is fatal when no team
matches. -/
def get_team_id_by_name (team_name : String) (res : TeamsResult) :
    Except FatalError String :=
  match res with
  | .transportError => .error .transportFailure
  | .response status teams =>
    if status ≠ 200 then .error .serviceError
    else
      match teams.find? (teamNameMatches team_name) with
      | some t => validate_team_id (t.id.getD "")
      | none => .error .teamNotFound

/-! ## CSV export (`write_incidents_to_csv`) -/

/-- The fixed header row of the CSV artifact. -/
def csvHeaders : List String :=
  ["HTML URL", "Incident Number", "Title", "Status", "Service Name",
   "Created", "Urgency", "Resolved By"]

/-- The projection of one incident into a CSV data row, together with the
list of incident ids on which `get_incident_resolve_metadata` is invoked
for this row (`[id]` for a resolved incident, `[]` otherwise).  `enrich`
is the enrichment call, abstracted over its network effect. -/
def csvRowWithCalls (enrich : String → ResolveMeta) (inc : Incident) :
    List String × List String :=
  let service := inc.service.getD ⟨none, none⟩
  let service_name := pyOrS service.summary (pyOrS service.name "N/A")
  let rb : String × List String :=
    if inc.status = some "resolved" then
      let iid := inc.id.getD ""
      let meta := enrich iid
      (pyOrS meta.resolved_by
        (pyOrS ((inc.last_status_change_by.getD ⟨none⟩).summary) "Unknown"),
       [iid])
    else ("", [])
  ([inc.html_url.getD "",
    (match inc.incident_number with | some n => toString n | none => "N/A"),
    inc.title.getD "N/A",
    inc.status.getD "N/A",
    service_name,
    inc.created_at.getD "N/A",
    inc.urgency.getD "N/A",
    rb.1],
   rb.2)

/-- The artifact produced by one export run: the destination filename, the
rows written in order (header first), and the incident ids passed to the
enricher. -/
structure CsvOut where
  filename : String
  rows : List (List String)
  enrich_calls : List String
deriving DecidableEq, Repr

/-- The default output filename template. -/
def defaultCsvFilename (team_name : String) : String :=
  "pagerduty_incidents_" ++ sanitize_filename_component team_name ++ ".csv"

/-- Embedding of `write_incidents_to_csv`: pick the filename (the default
template when the argument is `None` or empty, i.e. falsy), write the
header row, then one data row per incident in input order. -/
def write_incidents_to_csv (enrich : String → ResolveMeta)
    (incidents : List Incident) (team_name : String)
    (filename : Option String) : CsvOut :=
  let fname :=
    match filename with
    | some f => if f = "" then defaultCsvFilename team_name else f
    | none => defaultCsvFilename team_name
  ⟨fname,
   csvHeaders :: incidents.map (fun inc => (csvRowWithCalls enrich inc).1),
   (incidents.map (fun inc => (csvRowWithCalls enrich inc).2)).flatten⟩

/-- The tail of `main` after the fetch: the exporter runs only when the
fetched incident list is truthy (nonempty); otherwise no artifact is
produced at all. -/
def mainExportPhase (enrich : String → ResolveMeta)
    (incidents : List Incident) (team_name : String)
    (output : Option String) : Option CsvOut :=
  if incidents = [] then none
  else some (write_incidents_to_csv enrich incidents team_name output)

/-! ## Time window (`to_iso8601_utc` and the window computation of `main`)

`datetime.datetime` values in UTC are embedded as a count of seconds since
the epoch together with the microsecond field; `timedelta(days=d)` is an
exact shift of `d * 86400` seconds.  `isoformat()` is embedded through the
standard civil-from-days conversion of the proleptic Gregorian calendar,
producing `YYYY-MM-DDTHH:MM:SS[.ffffff]+00:00`, and `to_iso8601_utc`
replaces `+00:00` by `Z` after zeroing the microseconds, exactly as the
source does. -/

/-- A timezone-aware UTC `datetime`: whole seconds since the epoch (the
integer may be negative) and the microsecond field. -/
structure PyDateTime where
  epochSec : Int
  microsecond : Nat
deriving DecidableEq, Repr

/-- Civil date (year, month, day) of a day count since 1970-01-01,
proleptic Gregorian calendar (the standard era-based conversion). -/
def civilFromDays (z0 : Int) : Int × Nat × Nat :=
  let z : Int := z0 + 719468
  let era : Int := z.fdiv 146097
  let doe : Nat := (z - era * 146097).toNat
  let yoe : Nat := (doe - doe / 1460 + doe / 36524 - doe / 146096) / 365
  let y : Int := (yoe : Int) + era * 400
  let doy : Nat := doe - (365 * yoe + yoe / 4 - yoe / 100)
  let mp : Nat := (5 * doy + 2) / 153
  let d : Nat := doy - (153 * mp + 2) / 5 + 1
  let m : Nat := if mp < 10 then mp + 3 else mp - 9
  (if m ≤ 2 then y + 1 else y, m, d)

/-- A two-digit zero-padded decimal field (the rendered fields are always
below 100). -/
def twoDigits (n : Nat) : List Char :=
  [Nat.digitChar (n / 10 % 10), Nat.digitChar (n % 10)]

/-- The four-digit zero-padded year field (`datetime` years are 1..9999). -/
def fourDigits (n : Nat) : List Char :=
  [Nat.digitChar (n / 1000 % 10), Nat.digitChar (n / 100 % 10),
   Nat.digitChar (n / 10 % 10), Nat.digitChar (n % 10)]

/-- The six-digit zero-padded microsecond field. -/
def sixDigits (n : Nat) : List Char :=
  [Nat.digitChar (n / 100000 % 10), Nat.digitChar (n / 10000 % 10),
   Nat.digitChar (n / 1000 % 10), Nat.digitChar (n / 100 % 10),
   Nat.digitChar (n / 10 % 10), Nat.digitChar (n % 10)]

/-- The `YYYY-MM-DDTHH:MM:SS` part of `isoformat()`. -/
def isoCoreChars (t : PyDateTime) : List Char :=
  let days : Int := t.epochSec.fdiv 86400
  let sod : Nat := (t.epochSec - days * 86400).toNat
  let ymd := civilFromDays days
  fourDigits ymd.1.toNat ++ ['-'] ++ twoDigits ymd.2.1 ++ ['-'] ++
    twoDigits ymd.2.2 ++ ['T'] ++ twoDigits (sod / 3600) ++ [':'] ++
    twoDigits (sod % 3600 / 60) ++ [':'] ++ twoDigits (sod % 60)

/-- The UTC offset suffix `+00:00` that `isoformat()` appends for an
aware UTC datetime. -/
def isoOffsetChars : List Char := ['+', '0', '0', ':', '0', '0']

/-- `datetime.isoformat()` for an aware UTC value: date and time, a
fractional part only when the microsecond field is nonzero, then the
offset. -/
def isoformatChars (t : PyDateTime) : List Char :=
  isoCoreChars t ++
    (if t.microsecond ≠ 0 then '.' :: sixDigits t.microsecond else []) ++
    isoOffsetChars

/-- Python `str.replace(pat, rep)` (all occurrences, scanning left to
right), on character lists, with fuel equal to the scanned length. -/
def pyReplaceAux (pat rep : List Char) : Nat → List Char → List Char
  | 0, s => s
  | fuel + 1, s =>
    match s with
    | [] => []
    | c :: cs =>
      if pat.isPrefixOf (c :: cs) then
        rep ++ pyReplaceAux pat rep fuel ((c :: cs).drop pat.length)
      else
        c :: pyReplaceAux pat rep fuel cs

/-- Python `s.replace(pat, rep)`. -/
def pyReplace (s pat rep : List Char) : List Char :=
  pyReplaceAux pat rep s.length s

/-- Embedding of `to_iso8601_utc`:
`dt.replace(microsecond=0).isoformat().replace("+00:00", "Z")`. -/
def to_iso8601_utc (t : PyDateTime) : String :=
  String.mk (pyReplace (isoformatChars ⟨t.epochSec, 0⟩) isoOffsetChars ['Z'])

/-- The window computation of `main`: `lookback_days = max(1, days)` and
`lookback_utc = now_utc - timedelta(days=lookback_days)`; the pair is
`(lookback_utc, now_utc)`, i.e. `(since, until)` before rendering. -/
def mainComputeWindow (now : PyDateTime) (days : Int) :
    PyDateTime × PyDateTime :=
  let lookback_days : Int := max 1 days
  (⟨now.epochSec - lookback_days * 86400, now.microsecond⟩, now)

/-- The rendered `(since, until)` strings of `main`. -/
def mainWindowStrings (now : PyDateTime) (days : Int) : String × String :=
  (to_iso8601_utc (mainComputeWindow now days).1,
   to_iso8601_utc (mainComputeWindow now days).2)

/-! ## Concrete fixtures (inputs of witnesses and counterexamples) -/

/-- An incident with every key absent. -/
def emptyIncident : Incident :=
  ⟨none, none, none, none, none, none, none, none, none⟩

/-- A resolved incident with all fields populated. -/
def incA : Incident :=
  ⟨some "A1", some 1, some "a", some "resolved", some "high",
   some "2024-01-01T00:00:00Z", some "https://x/a", some ⟨some "Svc", none⟩,
   some ⟨some "Alice"⟩⟩

/-- A triggered (non-resolved) incident. -/
def incB : Incident :=
  ⟨some "B2", some 2, some "b", some "triggered", none, none, none, none, none⟩

/-- A resolved incident with most keys absent. -/
def incC : Incident :=
  ⟨some "C3", some 3, some "c", some "resolved", none, none, none, none, none⟩

/-- A two-page response sequence: a full first page announcing more, then a
final page. -/
def pagesW : List Page := [⟨[incA, incB], true, some 99⟩, ⟨[incC], false, none⟩]

/-- A service serving `pagesW` by offset. -/
def svcW : Nat → Nat → Page := fun _ offset => pagesW.getD (offset / 100) emptyPage

/-- A one-page service whose page carries a (wrong) total. -/
def svcT1 : Nat → Nat → Page := fun _ _ => ⟨[incB], false, some 7⟩

/-- The same service with the total absent. -/
def svcT2 : Nat → Nat → Page := fun _ _ => ⟨[incB], false, none⟩

/-- An enricher whose network call always fails at transport level. -/
def enrichNone : String → ResolveMeta :=
  fun _ => get_incident_resolve_metadata .transportError

/-- An enricher whose network call always finds the resolver Bob. -/
def enrichBob : String → ResolveMeta :=
  fun _ => get_incident_resolve_metadata
    (.response 200 [⟨"resolve_log_entry", some ⟨some "Bob", none⟩, none, none⟩])

/-- A resolved incident whose last-status-change actor's summary is the
empty string (a present but falsy value). -/
def cexIncident : Incident :=
  ⟨some "PINC001", some 7, some "t", some "resolved", some "low",
   some "2024-02-02", some "https://x/c", none, some ⟨some ""⟩⟩

/-- A search result whose first matching team has a malformed id. -/
def cexTeamList : List Team := [⟨some "bad", some "alpha"⟩]

/-- A search result with two case-insensitive matches, both well-formed. -/
def teamsW : List Team := [⟨some "PABC123", some "ALPHA"⟩, ⟨some "PZZZ999", some "alpha"⟩]

/-! ## Theorems -/

/-- **C2**: `get_incident_resolve_metadata` returns an absent attribution
(`{"resolved_by": None}`) rather than raising, in each case: non-success
HTTP status, transport error, no resolve-type entry, and a first
resolve-type entry whose agent has neither summary nor name.  (That the
embedding is a total function into `ResolveMeta` is the non-propagation of
errors: there is no error alternative in the return type.) -/
theorem C2_enrichment_never_fails :
    (∀ status entries, status ≠ 200 →
      get_incident_resolve_metadata (.response status entries) = ⟨none⟩) ∧
    get_incident_resolve_metadata .transportError = ⟨none⟩ ∧
    (∀ entries, (∀ e ∈ entries, e.type ≠ "resolve_log_entry") →
      get_incident_resolve_metadata (.response 200 entries) = ⟨none⟩) ∧
    (∀ entries e,
      entries.find? (fun x => x.type == "resolve_log_entry") = some e →
      (e.agent.getD ⟨none, none⟩).summary = none →
      (e.agent.getD ⟨none, none⟩).name = none →
      get_incident_resolve_metadata (.response 200 entries) = ⟨none⟩) := by
  refine ⟨?_, rfl, ?_, ?_⟩
  · intro status entries h
    simp [get_incident_resolve_metadata, h]
  · intro entries h
    have hf : entries.find? (fun x => x.type == "resolve_log_entry") = none :=
      List.find?_eq_none.mpr (fun x hx => by simpa using h x hx)
    simp [get_incident_resolve_metadata, hf]
  · intro entries e hfind hs hn
    simp [get_incident_resolve_metadata, hfind, pyTruthyStr, pyOrOpt, hs, hn]

/-- **C2 witness**: the four cases at concrete inputs. -/
theorem C2_enrichment_witness :
    get_incident_resolve_metadata (.response 500 []) = ⟨none⟩ ∧
    get_incident_resolve_metadata .transportError = ⟨none⟩ ∧
    get_incident_resolve_metadata
      (.response 200 [⟨"trigger_log_entry", none, none, none⟩]) = ⟨none⟩ ∧
    get_incident_resolve_metadata
      (.response 200 [⟨"resolve_log_entry", some ⟨none, none⟩, none, none⟩]) = ⟨none⟩ := by
  refine ⟨C2_enrichment_never_fails.1 500 [] (by decide),
    C2_enrichment_never_fails.2.1,
    C2_enrichment_never_fails.2.2.1 _ (by decide),
    C2_enrichment_never_fails.2.2.2
      [⟨"resolve_log_entry", some ⟨none, none⟩, none, none⟩]
      ⟨"resolve_log_entry", some ⟨none, none⟩, none, none⟩
      (by decide) rfl rfl⟩

/-- **C3**: the exporter writes exactly one header row first, with exactly
the 8 fixed names in order, then one data row per incident in input order;
the row count is the incident count plus one. -/
theorem C3_export_shape (enrich : String → ResolveMeta)
    (incidents : List Incident) (team_name : String)
    (filename : Option String) :
    (write_incidents_to_csv enrich incidents team_name filename).rows =
      csvHeaders :: incidents.map (fun inc => (csvRowWithCalls enrich inc).1) ∧
    csvHeaders = ["HTML URL", "Incident Number", "Title", "Status",
      "Service Name", "Created", "Urgency", "Resolved By"] ∧
    csvHeaders.length = 8 ∧
    (write_incidents_to_csv enrich incidents team_name filename).rows.length =
      incidents.length + 1 ∧
    (∀ i, i < incidents.length →
      (write_incidents_to_csv enrich incidents team_name filename).rows.getD (i + 1) [] =
        (csvRowWithCalls enrich (incidents.getD i emptyIncident)).1) := by
  refine ⟨rfl, rfl, rfl, by simp [write_incidents_to_csv], ?_⟩
  intro i hi
  simp [write_incidents_to_csv, List.getD_eq_getElem?_getD,
    List.getElem?_map, List.getElem?_eq_getElem, hi]

/-- **C9**: the pipeline produces an output artifact exactly when the
fetched incident list is nonempty; on an empty fetch the exporter is never
invoked and no file (not even a header row) is created. -/
theorem C9_empty_fetch_no_artifact (enrich : String → ResolveMeta)
    (incidents : List Incident) (team_name : String)
    (output : Option String) :
    mainExportPhase enrich incidents team_name output = none ↔ incidents = [] := by
  unfold mainExportPhase
  split <;> simp_all

/-- **C10**: for every integer `days` argument, `main` clamps the lookback
to `max 1 days` (never failing), so the computed window always has
`since < until`. -/
theorem C10_lookback_clamp (now : PyDateTime) (d : Int) :
    (mainComputeWindow now d).1.epochSec = now.epochSec - max 1 d * 86400 ∧
    (mainComputeWindow now d).1.epochSec < (mainComputeWindow now d).2.epochSec := by
  refine ⟨rfl, ?_⟩
  have h1 : (1 : Int) ≤ max 1 d := le_max_left 1 d
  have h2 : (86400 : Int) ≤ max 1 d * 86400 := by nlinarith
  show now.epochSec - max 1 d * 86400 < now.epochSec
  linarith

/-- `pyOrS` selects the first truthy value, `b` as default. -/
lemma pyOrS_eq_match (a : Option String) (b : String) :
    pyOrS a b = match pyTruthyStr a with | some s => s | none => b := by
  cases a with
  | none => rfl
  | some s => by_cases h : s = "" <;> simp [pyOrS, pyTruthyStr, h]

/-- **C4 counterexample**: the claim reads the incident's
`last_status_change_by` summary whenever it is *present*; the code uses
Python truthiness, so a present empty-string summary falls through to
`"Unknown"`.  Here the incident is resolved, the enricher's value is
absent, the summary is present (`some ""`), and the written field is
`"Unknown"`, not that summary. -/
theorem C4_counterexample :
    cexIncident.status = some "resolved" ∧
    (enrichNone (cexIncident.id.getD "")).resolved_by = none ∧
    (cexIncident.last_status_change_by.getD ⟨none⟩).summary = some "" ∧
    (csvRowWithCalls enrichNone cexIncident).1.getD 7 "" = "Unknown" ∧
    ("Unknown" : String) ≠ "" := by
  refine ⟨rfl, rfl, rfl, by decide, by decide⟩

/-- **C4 (amended)**: the `Resolved By` field of a written row equals, for
a resolved incident, the enricher's value when present and non-empty, else
the incident's `last_status_change_by` summary when present and non-empty,
else `"Unknown"` (empty strings are falsy and fall through); for a
non-resolved incident it is the empty string and the enricher is not
invoked. -/
theorem C4_resolved_by_field (enrich : String → ResolveMeta) (inc : Incident) :
    (inc.status = some "resolved" →
      (csvRowWithCalls enrich inc).1.getD 7 "" =
        (match pyTruthyStr (enrich (inc.id.getD "")).resolved_by with
         | some s => s
         | none =>
           match pyTruthyStr ((inc.last_status_change_by.getD ⟨none⟩).summary) with
           | some s => s
           | none => "Unknown") ∧
      (csvRowWithCalls enrich inc).2 = [inc.id.getD ""]) ∧
    (inc.status ≠ some "resolved" →
      (csvRowWithCalls enrich inc).1.getD 7 "" = "" ∧
      (csvRowWithCalls enrich inc).2 = []) := by
  constructor
  · intro h
    simp only [csvRowWithCalls, h, if_pos]
    refine ⟨?_, trivial⟩
    show pyOrS (enrich (inc.id.getD "")).resolved_by
      (pyOrS ((inc.last_status_change_by.getD ⟨none⟩).summary) "Unknown") = _
    simp only [pyOrS_eq_match]
  · intro h
    simp only [csvRowWithCalls, if_neg h]
    exact ⟨rfl, trivial⟩

/-- **C4 witness**: a resolved incident with a successful enrichment gets
the enricher's value and one enrichment call; a triggered incident gets the
empty field and no call. -/
theorem C4_resolved_by_witness :
    ((csvRowWithCalls enrichBob incA).1.getD 7 "" = "Bob" ∧
     (csvRowWithCalls enrichBob incA).2 = ["A1"]) ∧
    ((csvRowWithCalls enrichBob incB).1.getD 7 "" = "" ∧
     (csvRowWithCalls enrichBob incB).2 = []) := by
  refine ⟨⟨((C4_resolved_by_field enrichBob incA).1 rfl).1.trans (by decide),
          (((C4_resolved_by_field enrichBob incA).1 rfl).2).trans (by decide)⟩,
         (C4_resolved_by_field enrichBob incB).2 (by decide)⟩

/-- **C6 counterexample**: the claim says the resolver *returns the id* of
the first case-insensitive match; when that id is malformed (here
`"bad"`), the code instead fails with the fatal invalid-identifier
condition, so the id is not returned. -/
theorem C6_counterexample :
    teamNameMatches "Alpha" ⟨some "bad", some "alpha"⟩ = true ∧
    cexTeamList.find? (teamNameMatches "Alpha") = some ⟨some "bad", some "alpha"⟩ ∧
    get_team_id_by_name "Alpha" (.response 200 cexTeamList) ≠ .ok "bad" ∧
    get_team_id_by_name "Alpha" (.response 200 cexTeamList) = .error .invalidTeamId := by
  refine ⟨by decide, by decide, by decide, by decide⟩

/-- **C6 (amended)**: on a 200 search response the resolver returns the id
of the first candidate (server order) whose display name equals the query
case-insensitively, provided that id passes the identifier pattern
`^[A-Z0-9]{7,}$`; a malformed first-match id is the fatal
invalid-identifier condition, and no match at all is the fatal
`TeamNotFound` condition. -/
theorem C6_resolver_first_match (team_name : String) (teams : List Team) :
    (∀ t, teams.find? (teamNameMatches team_name) = some t →
      (is_pagerduty_team_id (t.id.getD "") = true →
        get_team_id_by_name team_name (.response 200 teams) = .ok (t.id.getD "")) ∧
      (is_pagerduty_team_id (t.id.getD "") = false →
        get_team_id_by_name team_name (.response 200 teams) =
          .error .invalidTeamId)) ∧
    (teams.find? (teamNameMatches team_name) = none →
      get_team_id_by_name team_name (.response 200 teams) =
        .error .teamNotFound) := by
  constructor
  · intro t hfind
    constructor
    · intro hvalid
      have hne : t.id.getD "" ≠ "" := by
        intro h0
        rw [h0] at hvalid
        simp [is_pagerduty_team_id] at hvalid
      simp [get_team_id_by_name, hfind, validate_team_id, hvalid, hne]
    · intro hinvalid
      simp [get_team_id_by_name, hfind, validate_team_id, hinvalid]
  · intro hfind
    simp [get_team_id_by_name, hfind]

/-- **C6 witness**: the first of two matches wins and its id is returned;
an empty result set is `TeamNotFound`. -/
theorem C6_resolver_witness :
    teamsW.find? (teamNameMatches "Alpha") = some ⟨some "PABC123", some "ALPHA"⟩ ∧
    get_team_id_by_name "Alpha" (.response 200 teamsW) = .ok "PABC123" ∧
    get_team_id_by_name "Alpha" (.response 200 []) = .error .teamNotFound := by
  refine ⟨by decide, ?_, (C6_resolver_first_match "Alpha" []).2 rfl⟩
  have h := ((C6_resolver_first_match "Alpha" teamsW).1
    ⟨some "PABC123", some "ALPHA"⟩ (by decide)).1 (by decide)
  simpa using h

/-- Running the fetch loop against a service that serves the page sequence
`ps` at offsets `offset, offset + 100, ...`, where every page but the last
announces more and the last does not: the loop consumes exactly the pages
of `ps`, returning their incidents concatenated in order and having issued
one request per page with limit 100 and offsets advancing by 100. -/
lemma fetchAux_pages (svc : Nat → Nat → Page) :
    ∀ (ps : List Page) (offset : Nat) (tc : Option Int) (fc : Nat) (fuel : Nat),
      ps ≠ [] →
      (∀ i, i < ps.length → svc 100 (offset + 100 * i) = ps.getD i emptyPage) →
      (∀ i, i < ps.length - 1 → (ps.getD i emptyPage).more = true) →
      (ps.getLastD emptyPage).more = false →
      ps.length ≤ fuel →
      (fetchAux svc fuel offset tc fc).map fetchObservables =
        some ((ps.map Page.incidents).flatten,
          (List.range ps.length).map (fun i => (100, offset + 100 * i))) := by
  intro ps
  induction ps with
  | nil => intro offset tc fc fuel hne; exact absurd rfl hne
  | cons p ps ih =>
    intro offset tc fc fuel hne hag hmore hlast hfuel
    cases fuel with
    | zero => simp at hfuel
    | succ f =>
    have hp : svc 100 offset = p := by simpa using hag 0 (by simp)
    by_cases hps : ps = []
    · subst hps
      have hpm : p.more = false := by simpa using hlast
      simp [fetchAux, hp, hpm, fetchObservables, List.range_succ]
    · have hpm : p.more = true := by
        have h0 : 0 < (p :: ps).length - 1 := by
          simp [List.length_pos.mpr hps]
        simpa using hmore 0 h0
      have hag' : ∀ i, i < ps.length →
          svc 100 (offset + 100 + 100 * i) = ps.getD i emptyPage := by
        intro i hi
        have h := hag (i + 1) (by simpa using Nat.succ_lt_succ hi)
        rw [show offset + 100 * (i + 1) = offset + 100 + 100 * i by ring] at h
        simpa using h
      have hmore' : ∀ i, i < ps.length - 1 → (ps.getD i emptyPage).more = true := by
        intro i hi
        have h := hmore (i + 1) (by simp; omega)
        simpa using h
      have hlast' : (ps.getLastD emptyPage).more = false := by
        rw [List.getLastD_cons] at hlast
        obtain ⟨q, hq⟩ := Option.isSome_iff_exists.mp
          (List.getLast?_isSome.mpr hps)
        rw [List.getLastD_eq_getLast?, hq] at hlast ⊢
        exact hlast
      have key := ih (offset + 100) (tc.or p.total) (fc + p.incidents.length) f
        hps hag' hmore' hlast' (by rw [List.length_cons] at hfuel; omega)
      simp only [fetchAux, hp, hpm, if_true]
      cases hfa : fetchAux svc f (offset + 100) (tc.or p.total)
          (fc + p.incidents.length) with
      | none => rw [hfa] at key; simp at key
      | some rest =>
        rw [hfa] at key
        simp only [Option.map_some', fetchObservables, Option.some.injEq,
          Prod.mk.injEq] at key
        obtain ⟨hin, hreq⟩ := key
        simp only [Option.map_some', fetchObservables, Option.some.injEq,
          Prod.mk.injEq, List.map_cons, List.flatten_cons]
        constructor
        · rw [hin]
        · rw [List.length_cons, List.range_succ_eq_map, List.map_cons,
            List.map_map, hreq]
          simp only [Nat.mul_zero, Nat.add_zero]
          congr 1
          apply List.map_congr_left
          intro i _
          simp only [Function.comp_apply, Prod.mk.injEq, Nat.succ_eq_add_one]
          exact ⟨trivial, by omega⟩

/-- **C1**: for every sequence of service responses (arbitrary `total`
fields) whose last page alone clears the `more` flag,
`get_incidents_for_team` requests pages with fixed limit 100 and offsets
0, 100, 200, ..., accumulates every page's incidents in order into one
sequence, stops exactly after the page whose `more` flag is false, and the
returned length is the sum of the per-page counts. -/
theorem C1_pagination_exhaustive (svc : Nat → Nat → Page) (ps : List Page)
    (fuel : Nat) (hne : ps ≠ [])
    (hag : ∀ i, i < ps.length → svc 100 (100 * i) = ps.getD i emptyPage)
    (hmore : ∀ i, i < ps.length - 1 → (ps.getD i emptyPage).more = true)
    (hlast : (ps.getLastD emptyPage).more = false)
    (hfuel : ps.length ≤ fuel) :
    ∃ tr, get_incidents_for_team svc fuel = some tr ∧
      tr.incidents = (ps.map Page.incidents).flatten ∧
      tr.requests = (List.range ps.length).map (fun i => (100, 100 * i)) ∧
      tr.incidents.length = (ps.map (fun p => p.incidents.length)).sum := by
  have key := fetchAux_pages svc ps 0 none 0 fuel hne (by simpa using hag)
    hmore hlast hfuel
  rw [show fetchAux svc fuel 0 none 0 = get_incidents_for_team svc fuel from rfl]
    at key
  cases hfa : get_incidents_for_team svc fuel with
  | none => rw [hfa] at key; simp at key
  | some tr =>
    rw [hfa] at key
    simp only [Option.map_some', fetchObservables, Option.some.injEq,
      Prod.mk.injEq] at key
    obtain ⟨hin, hreq⟩ := key
    refine ⟨tr, rfl, hin, by simpa using hreq, ?_⟩
    rw [hin, List.length_flatten, List.map_map]
    rfl

/-- **C1 witness**: a two-page run (2 + 1 incidents), the first page
announcing more with a wrong total, the second final with no total. -/
theorem C1_pagination_witness :
    pagesW ≠ [] ∧
    (∀ i, i < pagesW.length → svcW 100 (100 * i) = pagesW.getD i emptyPage) ∧
    (∀ i, i < pagesW.length - 1 → (pagesW.getD i emptyPage).more = true) ∧
    (pagesW.getLastD emptyPage).more = false ∧
    pagesW.length ≤ 5 ∧
    (∃ tr, get_incidents_for_team svcW 5 = some tr ∧
      tr.incidents = (pagesW.map Page.incidents).flatten ∧
      tr.requests = (List.range pagesW.length).map (fun i => (100, 100 * i)) ∧
      tr.incidents.length = (pagesW.map (fun p => p.incidents.length)).sum) := by
  refine ⟨by decide, by decide, by decide, by decide, by decide,
    C1_pagination_exhaustive svcW pagesW 5 (by decide) (by decide) (by decide)
      (by decide) (by decide)⟩

/-- Two services that agree on every page's incidents and `more` flag (so
they may differ arbitrarily in the `total` hint) drive the fetch loop to
the same observables from any pair of progress states: same termination,
same incidents, same requests. -/
lemma fetchAux_total_independent (svc1 svc2 : Nat → Nat → Page)
    (hinc : ∀ l o, (svc1 l o).incidents = (svc2 l o).incidents)
    (hmore : ∀ l o, (svc1 l o).more = (svc2 l o).more) :
    ∀ fuel offset tc1 tc2 fc1 fc2,
      (fetchAux svc1 fuel offset tc1 fc1).map fetchObservables =
      (fetchAux svc2 fuel offset tc2 fc2).map fetchObservables := by
  intro fuel
  induction fuel with
  | zero => intro offset tc1 tc2 fc1 fc2; simp [fetchAux]
  | succ f ih =>
    intro offset tc1 tc2 fc1 fc2
    simp only [fetchAux]
    simp only [hinc 100 offset, hmore 100 offset]
    cases hm : (svc2 100 offset).more with
    | false => simp [hm, fetchObservables]
    | true =>
      simp only [hm, if_true]
      have hrec := ih (offset + 100) (tc1.or (svc1 100 offset).total)
        (tc2.or (svc2 100 offset).total)
        (fc1 + (svc2 100 offset).incidents.length)
        (fc2 + (svc2 100 offset).incidents.length)
      cases h1 : fetchAux svc1 f (offset + 100) (tc1.or (svc1 100 offset).total)
          (fc1 + (svc2 100 offset).incidents.length) with
      | none =>
        cases h2 : fetchAux svc2 f (offset + 100) (tc2.or (svc2 100 offset).total)
            (fc2 + (svc2 100 offset).incidents.length) with
        | none => simp
        | some tr2 => rw [h1, h2] at hrec; simp at hrec
      | some tr1 =>
        cases h2 : fetchAux svc2 f (offset + 100) (tc2.or (svc2 100 offset).total)
            (fc2 + (svc2 100 offset).incidents.length) with
        | none => rw [h1, h2] at hrec; simp at hrec
        | some tr2 =>
          rw [h1, h2] at hrec
          simp only [Option.map_some', fetchObservables, Option.some.injEq,
            Prod.mk.injEq] at hrec
          obtain ⟨hi2, hr2⟩ := hrec
          simp [fetchObservables, hi2, hr2]

/-- **C7**: two runs of the fetcher over response sequences identical
except for each page's `total` field produce identical incident sequences
(and identical request sequences, hence identical stopping): `total`
never influences which incidents are returned, their order, or when
pagination stops. -/
theorem C7_total_noninterference (svc1 svc2 : Nat → Nat → Page) (fuel : Nat)
    (hinc : ∀ limit offset,
      (svc1 limit offset).incidents = (svc2 limit offset).incidents)
    (hmore : ∀ limit offset,
      (svc1 limit offset).more = (svc2 limit offset).more) :
    (get_incidents_for_team svc1 fuel).map fetchObservables =
      (get_incidents_for_team svc2 fuel).map fetchObservables :=
  fetchAux_total_independent svc1 svc2 hinc hmore fuel 0 none none 0 0

/-- **C7 witness**: two concrete services differing only in the `total`
hint (7 versus absent) yield the same observables. -/
theorem C7_total_witness :
    (∀ limit offset,
      (svcT1 limit offset).incidents = (svcT2 limit offset).incidents) ∧
    (∀ limit offset, (svcT1 limit offset).more = (svcT2 limit offset).more) ∧
    svcT1 0 0 ≠ svcT2 0 0 ∧
    (get_incidents_for_team svcT1 3).map fetchObservables =
      (get_incidents_for_team svcT2 3).map fetchObservables :=
  ⟨fun _ _ => rfl, fun _ _ => rfl, by decide,
   C7_total_noninterference svcT1 svcT2 3 (fun _ _ => rfl) (fun _ _ => rfl)⟩

/-- `Nat.digitChar` of a value below 10 is a decimal digit character. -/
lemma digitChar_digit : ∀ n, n < 10 →
    48 ≤ (Nat.digitChar n).toNat ∧ (Nat.digitChar n).toNat ≤ 57 := by decide

/-- Every character of a two-digit field is a decimal digit. -/
lemma mem_twoDigits (n : Nat) (c : Char) (hc : c ∈ twoDigits n) :
    48 ≤ c.toNat ∧ c.toNat ≤ 57 := by
  simp only [twoDigits, List.mem_cons, List.not_mem_nil, or_false] at hc
  rcases hc with rfl | rfl <;>
    exact digitChar_digit _ (Nat.mod_lt _ (by norm_num))

/-- Every character of the four-digit year field is a decimal digit. -/
lemma mem_fourDigits (n : Nat) (c : Char) (hc : c ∈ fourDigits n) :
    48 ≤ c.toNat ∧ c.toNat ≤ 57 := by
  simp only [fourDigits, List.mem_cons, List.not_mem_nil, or_false] at hc
  rcases hc with rfl | rfl | rfl | rfl <;>
    exact digitChar_digit _ (Nat.mod_lt _ (by norm_num))

/-- Characters of the date-time core: digits, `-`, `:` or `T`. -/
lemma isoCoreChars_classify (t : PyDateTime) :
    ∀ c ∈ isoCoreChars t,
      (48 ≤ c.toNat ∧ c.toNat ≤ 57) ∨ c = '-' ∨ c = ':' ∨ c = 'T' := by
  intro c hc
  simp only [isoCoreChars, List.mem_append, List.mem_singleton] at hc
  rcases hc with ((((((((((h | rfl) | h) | rfl) | h) | rfl) | h) | rfl) | h) | rfl) | h)
  · exact Or.inl (mem_fourDigits _ c h)
  · exact Or.inr (Or.inl rfl)
  · exact Or.inl (mem_twoDigits _ c h)
  · exact Or.inr (Or.inl rfl)
  · exact Or.inl (mem_twoDigits _ c h)
  · exact Or.inr (Or.inr (Or.inr rfl))
  · exact Or.inl (mem_twoDigits _ c h)
  · exact Or.inr (Or.inr (Or.inl rfl))
  · exact Or.inl (mem_twoDigits _ c h)
  · exact Or.inr (Or.inr (Or.inl rfl))
  · exact Or.inl (mem_twoDigits _ c h)

/-- The plus sign never occurs in the date-time core. -/
lemma plus_not_mem_isoCoreChars (t : PyDateTime) : '+' ∉ isoCoreChars t := by
  intro h
  rcases isoCoreChars_classify t '+' h with h1 | h1 | h1 | h1 <;>
    exact absurd h1 (by decide)

/-- The dot never occurs in the date-time core. -/
lemma dot_not_mem_isoCoreChars (t : PyDateTime) : '.' ∉ isoCoreChars t := by
  intro h
  rcases isoCoreChars_classify t '.' h with h1 | h1 | h1 | h1 <;>
    exact absurd h1 (by decide)

/-- The replace scan of the empty string is empty at any fuel. -/
lemma pyReplaceAux_nil (pat rep : List Char) :
    ∀ fuel, pyReplaceAux pat rep fuel [] = [] := by
  intro fuel; cases fuel <;> rfl

/-- Replacing `+00:00` by `Z` in a string of the form `core ++ "+00:00"`,
where `core` contains no plus sign, yields `core ++ "Z"`. -/
lemma pyReplace_boundary :
    ∀ (core : List Char), '+' ∉ core →
      ∀ fuel, core.length + 1 ≤ fuel →
      pyReplaceAux isoOffsetChars ['Z'] fuel (core ++ isoOffsetChars) =
        core ++ ['Z'] := by
  intro core
  induction core with
  | nil =>
    intro _ fuel hfuel
    cases fuel with
    | zero => omega
    | succ f =>
      show pyReplaceAux isoOffsetChars ['Z'] (f + 1) isoOffsetChars = ['Z']
      simp [pyReplaceAux, isoOffsetChars, List.isPrefixOf, pyReplaceAux_nil]
  | cons c cs ih =>
    intro hmem fuel hfuel
    have hc : c ≠ '+' := by
      intro h; exact hmem (by simp [h])
    have hcs : '+' ∉ cs := fun h => hmem (List.mem_cons_of_mem c h)
    cases fuel with
    | zero => simp at hfuel
    | succ f =>
      show pyReplaceAux isoOffsetChars ['Z'] (f + 1) (c :: (cs ++ isoOffsetChars)) = _
      simp only [pyReplaceAux]
      have hpre : isoOffsetChars.isPrefixOf (c :: (cs ++ isoOffsetChars)) = false := by
        simp only [isoOffsetChars, List.isPrefixOf, Bool.and_eq_false_iff]
        left
        simpa using fun h => hc h.symm
      rw [hpre]
      simp only [Bool.false_eq_true, if_false, List.cons_append]
      exact congrArg (List.cons c) (ih hcs f (by simp at hfuel; omega))

/-- The rendered timestamp is the date-time core (of the microsecond-zeroed
instant) followed by a literal `Z`. -/
lemma to_iso8601_utc_data (t : PyDateTime) :
    (to_iso8601_utc t).data = isoCoreChars ⟨t.epochSec, 0⟩ ++ ['Z'] := by
  show pyReplace (isoformatChars ⟨t.epochSec, 0⟩) isoOffsetChars ['Z'] = _
  have h0 : isoformatChars ⟨t.epochSec, 0⟩ =
      isoCoreChars ⟨t.epochSec, 0⟩ ++ isoOffsetChars := by
    simp [isoformatChars]
  rw [pyReplace, h0]
  exact pyReplace_boundary _ (plus_not_mem_isoCoreChars _) _
    (by simp [isoOffsetChars])

/-- **C8**: for any positive integer lookback `d`, the computed `since`
instant is exactly `until` minus `d` days (`d * 86400` seconds, same
microsecond field), and both rendered strings have zero fractional seconds
(no `.` character) and a literal trailing `Z`. -/
theorem C8_window_rendering (now : PyDateTime) (d : Int) (hd : 1 ≤ d) :
    (mainComputeWindow now d).1.epochSec = now.epochSec - d * 86400 ∧
    (mainComputeWindow now d).1.microsecond = now.microsecond ∧
    (mainComputeWindow now d).2 = now ∧
    (mainWindowStrings now d).1.data.getLast? = some 'Z' ∧
    (mainWindowStrings now d).2.data.getLast? = some 'Z' ∧
    '.' ∉ (mainWindowStrings now d).1.data ∧
    '.' ∉ (mainWindowStrings now d).2.data := by
  have hmax : max 1 d = d := max_eq_right hd
  refine ⟨by simp [mainComputeWindow, hmax], rfl, rfl, ?_, ?_, ?_, ?_⟩ <;>
    simp only [mainWindowStrings, to_iso8601_utc_data]
  · exact List.getLast?_concat _
  · exact List.getLast?_concat _
  · simp only [List.mem_append, List.mem_singleton]
    rintro (h | h)
    · exact dot_not_mem_isoCoreChars _ h
    · exact absurd h (by decide)
  · simp only [List.mem_append, List.mem_singleton]
    rintro (h | h)
    · exact dot_not_mem_isoCoreChars _ h
    · exact absurd h (by decide)

/-- **C8 witness**: the window at a concrete instant and a three-day
lookback. -/
theorem C8_window_witness :
    (1 : Int) ≤ 3 ∧
    (mainComputeWindow ⟨1000000, 123⟩ 3).1.epochSec = 1000000 - 3 * 86400 ∧
    (mainComputeWindow ⟨1000000, 123⟩ 3).1.microsecond = 123 ∧
    (mainComputeWindow ⟨1000000, 123⟩ 3).2 = ⟨1000000, 123⟩ ∧
    (mainWindowStrings ⟨1000000, 123⟩ 3).1.data.getLast? = some 'Z' ∧
    (mainWindowStrings ⟨1000000, 123⟩ 3).2.data.getLast? = some 'Z' ∧
    '.' ∉ (mainWindowStrings ⟨1000000, 123⟩ 3).1.data ∧
    '.' ∉ (mainWindowStrings ⟨1000000, 123⟩ 3).2.data :=
  ⟨by decide, C8_window_rendering ⟨1000000, 123⟩ 3 (by decide)⟩

/-- `Char.ofNat` of a valid (small) code point evaluates to it. -/
lemma char_toNat_ofNat {n : Nat} (h : n < 55296) : (Char.ofNat n).toNat = n := by
  rw [Char.ofNat, dif_pos (Or.inl h)]
  rfl

/-- `Char.toLower` never produces a character in the uppercase ASCII
range. -/
lemma toLower_not_upper (c : Char) :
    ¬(65 ≤ (Char.toLower c).toNat ∧ (Char.toLower c).toNat ≤ 90) := by
  simp only [Char.toLower]
  split
  · rename_i h
    rw [char_toNat_ofNat (by omega)]
    omega
  · rename_i h
    omega

/-- Characters of a collapsed list: the separator, or an alphanumeric
character of the input. -/
lemma mem_collapseAux : ∀ (b : Bool) (l : List Char) (c : Char),
    c ∈ collapseAux b l → c = '_' ∨ (isAsciiAlnum c = true ∧ c ∈ l) := by
  intro b l
  induction l generalizing b with
  | nil => intro c hc; simp [collapseAux] at hc
  | cons d ds ih =>
    intro c hc
    simp only [collapseAux] at hc
    split_ifs at hc with h1 h2
    · rcases List.mem_cons.mp hc with rfl | hc
      · exact Or.inr ⟨h1, List.mem_cons_self _ _⟩
      · rcases ih false c hc with h | ⟨ha, hm⟩
        · exact Or.inl h
        · exact Or.inr ⟨ha, List.mem_cons_of_mem _ hm⟩
    · rcases ih true c hc with h | ⟨ha, hm⟩
      · exact Or.inl h
      · exact Or.inr ⟨ha, List.mem_cons_of_mem _ hm⟩
    · rcases List.mem_cons.mp hc with rfl | hc
      · exact Or.inl rfl
      · rcases ih true c hc with h | ⟨ha, hm⟩
        · exact Or.inl h
        · exact Or.inr ⟨ha, List.mem_cons_of_mem _ hm⟩

/-- Inside a separator run, the collapsed tail never starts with the
separator: its head, if any, is alphanumeric. -/
lemma head_collapseAux_true : ∀ (l : List Char) (c : Char),
    (collapseAux true l).head? = some c → isAsciiAlnum c = true := by
  intro l
  induction l with
  | nil => intro c hc; simp [collapseAux] at hc
  | cons d ds ih =>
    intro c hc
    simp only [collapseAux] at hc
    split_ifs at hc with h1
    · rw [List.head?_cons, Option.some.injEq] at hc
      rw [← hc]
      exact h1
    · exact ih c hc

/-- No two adjacent separators appear in a collapsed list. -/
lemma chain_collapseAux : ∀ (b : Bool) (l : List Char),
    (collapseAux b l).Chain' (fun x y => ¬(x = '_' ∧ y = '_')) := by
  intro b l
  induction l generalizing b with
  | nil => simp [collapseAux]
  | cons d ds ih =>
    simp only [collapseAux]
    split_ifs with h1 h2
    · rw [List.chain'_cons']
      refine ⟨?_, ih false⟩
      intro y _ hxy
      rw [hxy.1] at h1
      exact absurd h1 (by decide)
    · exact ih true
    · rw [List.chain'_cons']
      refine ⟨?_, ih true⟩
      intro y hy hxy
      have ha := head_collapseAux_true ds y (by simpa using hy)
      rw [hxy.2] at ha
      exact absurd ha (by decide)

/-- A nonempty initial segment has the same head as the full list. -/
lemma head?_eq_of_starts {α : Type} {l₁ l₂ : List α} (h : l₁ <+: l₂)
    (hne : l₁ ≠ []) : l₂.head? = l₁.head? := by
  obtain ⟨t, rfl⟩ := h
  cases l₁ with
  | nil => exact absurd rfl hne
  | cons a l => rfl

/-- **C5**: `sanitize_filename_component` maps the three documented
examples as stated, and in general either yields the fallback `"team"` or
a nonempty string of lower-case alphanumerics separated by single
underscores, with no separator at either end. -/
theorem C5_sanitize_behaviour :
    sanitize_filename_component "Platform SRE!!" = "platform_sre" ∧
    sanitize_filename_component "   " = "team" ∧
    sanitize_filename_component "Team-42" = "team_42" ∧
    ∀ s : String,
      sanitize_filename_component s = "team" ∨
      (sanitize_filename_component s ≠ "" ∧
       (∀ c ∈ (sanitize_filename_component s).data,
          c = '_' ∨ (isAsciiAlnum c = true ∧ ¬(65 ≤ c.toNat ∧ c.toNat ≤ 90))) ∧
       (sanitize_filename_component s).data.head? ≠ some '_' ∧
       (sanitize_filename_component s).data.getLast? ≠ some '_' ∧
       (sanitize_filename_component s).data.Chain'
         (fun x y => ¬(x = '_' ∧ y = '_'))) := by
  refine ⟨by decide, by decide, by decide, ?_⟩
  intro s
  set low := (pyStrip s.data).map Char.toLower with hlow
  set collapsed := collapseAux false low with hcol
  set w := collapsed.dropWhile (fun c => c == '_') with hw
  set t := w.rdropWhile (fun c => c == '_') with htdef
  by_cases ht : t = []
  · left
    simp [sanitize_filename_component, ← hlow, ← hcol, ← hw, ← htdef, ht]
  · right
    have hdata : (sanitize_filename_component s).data = t := by
      simp [sanitize_filename_component, ← hlow, ← hcol, ← hw, ← htdef, ht]
    have htw : t <+: w := List.rdropWhile_prefix _ _
    have hwc : w <:+ collapsed := List.dropWhile_suffix _
    have hsub : ∀ c, c ∈ t → c ∈ collapsed := fun c hc =>
      hwc.sublist.subset (htw.sublist.subset hc)
    refine ⟨?_, ?_, ?_, ?_, ?_⟩
    · intro h0
      apply ht
      rw [← hdata, h0]
    · intro c hc
      rw [hdata] at hc
      rcases mem_collapseAux false low c (hsub c hc) with h | ⟨ha, hm⟩
      · exact Or.inl h
      · refine Or.inr ⟨ha, ?_⟩
        obtain ⟨d, _, rfl⟩ := List.mem_map.mp hm
        exact toLower_not_upper d
    · rw [hdata]
      intro hhead
      have hwhead : w.head? = some '_' := by
        rw [head?_eq_of_starts htw ht, hhead]
      have hwne : w ≠ [] := by
        intro h
        rw [h] at hwhead
        exact Option.noConfusion hwhead
      have hnot := List.head_dropWhile_not (fun c => c == '_') collapsed hwne
      rw [List.head?_eq_head hwne, Option.some.injEq] at hwhead
      rw [hwhead] at hnot
      exact absurd hnot (by decide)
    · rw [hdata]
      intro hlast
      have hnot := List.rdropWhile_last_not (fun c => c == '_') w ht
      rw [List.getLast?_eq_getLast t ht, Option.some.injEq] at hlast
      rw [hlast] at hnot
      exact absurd hnot (by decide)
    · rw [hdata]
      have hchain := chain_collapseAux false low
      have hinf : t <:+: collapsed := htw.isInfix.trans hwc.isInfix
      exact List.Chain'.infix hchain hinf

end PdExporter
